import Mathlib

/-!
# SFGUI: the single-child container `sfg::Bin`

A shallow embedding of `src/Bin.cpp` (and of the parts of `Widget` and
`Container` it calls) as state passing over a heap of widget objects.

* Widget objects live in a heap indexed by `WidgetId`; a `Widget::Ptr` is an
  optional identity (`none` is the null pointer).
* `std::cerr` is a list of lines in the state, and every signal emission is
  recorded in a trace in the state.
* `sf::Vector2f` / `sf::FloatRect` values are only stored and copied by the
  code embedded here, never computed with; their components are integers.
* Virtual calls to `QueueResize` walk up the parent chain; the embedding
  bounds that walk by a fuel argument, `none` meaning that the call has not
  returned within the fuel.
* Dynamic types are `Widget` (base behaviour) and `Bin`: the only overrides
  of the source.
-/

set_option linter.dupNamespace false

namespace sfg

/-- Identity of a widget object. -/
abbrev WidgetId := Nat

/-- The type `sf::Vector2f`, used for requisitions. -/
structure Vector2f where
  x : Int
  y : Int
deriving DecidableEq, Repr

/-- The type `sf::FloatRect`, used for allocations. -/
structure FloatRect where
  Left : Int
  Top : Int
  Width : Int
  Height : Int
deriving DecidableEq, Repr

/-- The shared pointer `Widget::Ptr`: `none` is the empty pointer. -/
abbrev Widget.Ptr := Option WidgetId

/-- The enum `Widget::State` (Widget.hpp 23-29). -/
inductive Widget.State where
  | Normal
  | Active
  | Prelight
  | Selected
  | Insensitive
deriving DecidableEq, Repr

/-- Dynamic type of a widget object: it selects the `QueueResize` override. -/
inductive DynType where
  | Widget
  | Bin
deriving DecidableEq, Repr

/-- A member function bound to its receiver, as connected to a signal:
`OnAdd.Connect( &Bin::HandleAdd, this )`. -/
inductive Handler where
  | Bin_HandleAdd (receiver : WidgetId)
deriving DecidableEq, Repr

/-- One signal emission, recorded in the trace of the state. -/
inductive Emission where
  | OnAdd (container child : WidgetId)
  | OnRemove (container child : WidgetId)
  | OnSizeRequest (widget : WidgetId) (size : Vector2f)
deriving DecidableEq, Repr

/-- A widget object: the private members of `Widget` (Widget.hpp 147-159),
the child collection of `Container` and the handlers connected to `OnAdd`. -/
structure Object where
  dynType : DynType
  m_parent : Widget.Ptr
  m_sensitive : Bool
  m_visible : Bool
  m_focus_widget : Widget.Ptr
  m_state : Widget.State
  m_name : String
  m_allocation : FloatRect
  m_requisition : Vector2f
  m_invalidated : Bool
  m_children : List WidgetId
  OnAdd : List Handler
deriving DecidableEq

/-- The whole program state: the heap of widget objects, the lines written to
`std::cerr`, and the trace of signal emissions. -/
structure World where
  obj : WidgetId → Object
  cerr : List String
  emitted : List Emission

/-- Replace the object stored at `w`. -/
def World.setObj (s : World) (w : WidgetId) (o : Object) : World :=
  { s with obj := fun i => if i = w then o else s.obj i }

/-- Write one line to `std::cerr`. -/
def World.writeCerr (s : World) (line : String) : World :=
  { s with cerr := s.cerr ++ [line] }

/-- Record a signal emission in the trace. -/
def World.emit (s : World) (e : Emission) : World :=
  { s with emitted := s.emitted ++ [e] }

/-- Modelled from the spec: the constructor `Widget::Widget` (Widget.cpp is
missing): no parent, sensitive, visible, state Normal, zero requisition and
allocation. -/
def Widget.Widget : Object :=
  { dynType := DynType.Widget
    m_parent := none
    m_sensitive := true
    m_visible := true
    m_focus_widget := none
    m_state := Widget.State.Normal
    m_name := ""
    m_allocation := ⟨0, 0, 0, 0⟩
    m_requisition := ⟨0, 0⟩
    m_invalidated := true
    m_children := []
    OnAdd := [] }

/-- Modelled from the spec: the constructor `Container::Container`
(Container.cpp is missing): a widget with an empty child collection and no
handler connected. -/
def Container.Container : Object :=
  { Widget.Widget with m_children := [], OnAdd := [] }

/-- The accessor `Widget::GetRequisition` (Widget.hpp 83): a read of
`m_requisition`. -/
def Widget.GetRequisition (s : World) (self : WidgetId) : Vector2f :=
  (s.obj self).m_requisition

/-- The accessor `Widget::GetAllocation` (Widget.hpp 78). -/
def Widget.GetAllocation (s : World) (self : WidgetId) : FloatRect :=
  (s.obj self).m_allocation

/-- The parent back-reference `m_parent` of a widget. -/
def Widget.GetParent (s : World) (self : WidgetId) : Widget.Ptr :=
  (s.obj self).m_parent

/-- Modelled from the spec: `Widget::RequestSize` (Widget.cpp is missing):
"sets requisition to size; emits OnSizeRequest(self, size). Does not itself
trigger re-layout of ancestors". -/
def Widget.RequestSize (s : World) (self : WidgetId) (size : Vector2f) : World :=
  (s.setObj self { s.obj self with m_requisition := size }).emit
    (Emission.OnSizeRequest self size)

/-- Modelled from the spec: `Container::GetChildren` (Container.cpp is
missing): "read-only ordered view of current children". -/
def Container.GetChildren (s : World) (self : WidgetId) : List WidgetId :=
  (s.obj self).m_children

/-- Modelled from the spec: `Container::IsChild` (Container.cpp is missing):
"membership test". -/
def Container.IsChild (s : World) (self widget : WidgetId) : Bool :=
  decide (widget ∈ Container.GetChildren s self)

/-- Modelled from the spec: `Container::Remove` (Container.cpp is missing):
"detaches child if present; clears its parent back-reference; emits
OnRemove(self, child); no-op (not an error) if child is not currently a
member". No handler of the source connects to `OnRemove`. -/
def Container.Remove (s : World) (self child : WidgetId) : World :=
  if child ∈ Container.GetChildren s self then
    let s1 := s.setObj self
      { s.obj self with m_children := (s.obj self).m_children.erase child }
    let s2 := s1.setObj child { s1.obj child with m_parent := none }
    s2.emit (Emission.OnRemove self child)
  else s

/-- Modelled from the spec: `Widget::QueueResize`, the base implementation
(Widget.cpp is missing; Widget.hpp 108-113: "Asks the parent widget to
allocate more space"): the request is handed to the parent through a virtual
call `virt`, and ends at a widget without parent. -/
def Widget.QueueResize (virt : World → WidgetId → WidgetId → Option World)
    (s : World) (self widget : WidgetId) : Option World :=
  match (s.obj self).m_parent with
  | none => some s
  | some p => virt s p widget

/-- The override `Bin::QueueResize` (Bin.cpp 31-43). `virt` is the virtual
`QueueResize` that the base implementation calls on the parent. -/
def Bin.QueueResize (virt : World → WidgetId → WidgetId → Option World)
    (s : World) (self widget : WidgetId) : Option World :=
  if widget = self then
    Widget.QueueResize virt s self widget
  else if !Container.IsChild s self widget then
    some s
  else
    some (Widget.RequestSize s self (Widget.GetRequisition s widget))

/-- The virtual call `x->QueueResize( widget )`: dispatch on the dynamic type
of `x`. Each level of the call chain uses one unit of fuel. -/
def virtualQueueResize : Nat → World → WidgetId → WidgetId → Option World
  | 0, _, _, _ => none
  | n + 1, s, x, widget =>
    match (s.obj x).dynType with
    | DynType.Bin => Bin.QueueResize (virtualQueueResize n) s x widget
    | DynType.Widget => Widget.QueueResize (virtualQueueResize n) s x widget

/-- The line `Bin::HandleAdd` writes to `std::cerr` (Bin.cpp 22). -/
def Bin.warning : String :=
  "SFGUI warning: Only one widget can be added to a Bin."

/-- The accessor `Bin::GetChild` (Bin.cpp 12-18). The method is const: it is
a read of the state. -/
def Bin.GetChild (s : World) (self : WidgetId) : Widget.Ptr :=
  if (Container.GetChildren s self).length < 1 then
    none
  else
    (Container.GetChildren s self).head?

/-- The handler `Bin::HandleAdd` (Bin.cpp 20-29); its first argument is
unused in the source. -/
def Bin.HandleAdd (fuel : Nat) (s : World) (self : WidgetId) (_widget child : WidgetId) :
    Option World :=
  if (Container.GetChildren s self).length > 1 then
    let s1 := s.writeCerr Bin.warning
    some (Container.Remove s1 self child)
  else
    virtualQueueResize fuel s self child

/-- Run one connected handler with the arguments of an `OnAdd` emission. -/
def Handler.call (fuel : Nat) (container child : WidgetId) (h : Handler) (s : World) :
    Option World :=
  match h with
  | Handler.Bin_HandleAdd receiver => Bin.HandleAdd fuel s receiver container child

/-- Modelled from the spec: `Signal::Emit` (Signal.hpp is missing): "invokes
all currently registered handlers synchronously, in registration order". -/
def Signal.Emit (call : Handler → World → Option World) : List Handler → World → Option World
  | [], s => some s
  | h :: hs, s => (call h s).bind (Signal.Emit call hs)

/-- Modelled from the spec: the attaching steps of `Container::Add`
(Container.cpp is missing): "attaches child, detaching it from any prior
parent first; inserts at the end of the child collection; sets child's parent
back-reference to self", up to the record of the `OnAdd` emission. -/
def Container.attach (s : World) (self child : WidgetId) : World :=
  let s0 := match (s.obj child).m_parent with
    | some p => Container.Remove s p child
    | none => s
  let s1 := s0.setObj self
    { s0.obj self with m_children := (s0.obj self).m_children ++ [child] }
  let s2 := s1.setObj child { s1.obj child with m_parent := some self }
  s2.emit (Emission.OnAdd self child)

/-- Modelled from the spec: `Container::Add` (Container.cpp is missing): the
attaching steps, then "emits OnAdd(self, child)": the handlers connected to
the container's `OnAdd` run in registration order. -/
def Container.Add (fuel : Nat) (s : World) (self child : WidgetId) : Option World :=
  let s3 := Container.attach s self child
  Signal.Emit (Handler.call fuel self child) (s3.obj self).OnAdd s3

/-- The constructor `Bin::Bin` (Bin.cpp 6-10): a container whose `OnAdd`
signal has `Bin::HandleAdd`, bound to the new object, connected. -/
def Bin.Bin (s : World) (self : WidgetId) : World :=
  s.setObj self
    { Container.Container with
      dynType := DynType.Bin
      OnAdd := Container.Container.OnAdd ++ [Handler.Bin_HandleAdd self] }

/-- The object at `b` is a Bin as `Bin::Bin` leaves it: dynamic type `Bin`
and exactly `Bin::HandleAdd` (bound to `b`) connected to `OnAdd`. -/
def IsBin (s : World) (b : WidgetId) : Prop :=
  (s.obj b).dynType = DynType.Bin ∧ (s.obj b).OnAdd = [Handler.Bin_HandleAdd b]

/-- A finite sequence of `Add` calls on the same container, in order. -/
def addAll (fuel : Nat) (self : WidgetId) : List WidgetId → World → Option World
  | [], s => some s
  | c :: cs, s => (Container.Add fuel s self c).bind (addAll fuel self cs)

/-- A state in which every object is a freshly constructed base widget,
nothing was written to `std::cerr` and no signal was emitted. -/
def World.fresh : World :=
  { obj := fun _ => Widget.Widget, cerr := [], emitted := [] }

/-- The scenario of the spec: a root Bin `0` containing the Bin `1`, which
contains the leaf `2`; the leaf then requests the size `{10, 20}`. Widget `3`
is a further leaf without parent. -/
def scene : World :=
  Widget.RequestSize
    (((Container.Add 1 (Bin.Bin (Bin.Bin World.fresh 0) 1) 0 1).bind
      (fun s => Container.Add 1 s 1 2)).getD World.fresh)
    2 ⟨10, 20⟩

/-! ## Frame lemmas for the heap operations -/

@[simp]
theorem setObj_obj (s : World) (w : WidgetId) (o : Object) (i : WidgetId) :
    (s.setObj w o).obj i = if i = w then o else s.obj i := rfl

@[simp]
theorem setObj_cerr (s : World) (w : WidgetId) (o : Object) : (s.setObj w o).cerr = s.cerr := rfl

@[simp]
theorem setObj_emitted (s : World) (w : WidgetId) (o : Object) :
    (s.setObj w o).emitted = s.emitted := rfl

@[simp]
theorem writeCerr_obj (s : World) (l : String) : (s.writeCerr l).obj = s.obj := rfl

@[simp]
theorem writeCerr_cerr (s : World) (l : String) : (s.writeCerr l).cerr = s.cerr ++ [l] := rfl

@[simp]
theorem writeCerr_emitted (s : World) (l : String) : (s.writeCerr l).emitted = s.emitted := rfl

@[simp]
theorem emit_obj (s : World) (e : Emission) : (s.emit e).obj = s.obj := rfl

@[simp]
theorem emit_cerr (s : World) (e : Emission) : (s.emit e).cerr = s.cerr := rfl

@[simp]
theorem emit_emitted (s : World) (e : Emission) : (s.emit e).emitted = s.emitted ++ [e] := rfl

theorem Remove_cerr (s : World) (p c : WidgetId) : (Container.Remove s p c).cerr = s.cerr := by
  unfold Container.Remove
  split_ifs <;> simp

theorem Remove_children (s : World) (p c i : WidgetId) :
    ((Container.Remove s p c).obj i).m_children =
      if i = p ∧ c ∈ (s.obj p).m_children then (s.obj p).m_children.erase c
      else (s.obj i).m_children := by
  unfold Container.Remove Container.GetChildren
  by_cases hc : c ∈ (s.obj p).m_children
  · by_cases hi : i = p <;> by_cases hic : i = c <;> by_cases hcp : c = p <;> simp_all
  · simp [hc]

theorem Remove_parent (s : World) (p c i : WidgetId) :
    ((Container.Remove s p c).obj i).m_parent =
      if i = c ∧ c ∈ (s.obj p).m_children then none else (s.obj i).m_parent := by
  unfold Container.Remove Container.GetChildren
  by_cases hc : c ∈ (s.obj p).m_children
  · by_cases hi : i = p <;> by_cases hic : i = c <;> by_cases hcp : c = p <;> simp_all
  · simp [hc]

theorem Remove_requisition (s : World) (p c i : WidgetId) :
    ((Container.Remove s p c).obj i).m_requisition = (s.obj i).m_requisition := by
  unfold Container.Remove Container.GetChildren
  by_cases hc : c ∈ (s.obj p).m_children
  · by_cases hi : i = p <;> by_cases hic : i = c <;> by_cases hcp : c = p <;> simp_all
  · simp [hc]

theorem Remove_dynType (s : World) (p c i : WidgetId) :
    ((Container.Remove s p c).obj i).dynType = (s.obj i).dynType := by
  unfold Container.Remove Container.GetChildren
  by_cases hc : c ∈ (s.obj p).m_children
  · by_cases hi : i = p <;> by_cases hic : i = c <;> by_cases hcp : c = p <;> simp_all
  · simp [hc]

theorem Remove_OnAdd (s : World) (p c i : WidgetId) :
    ((Container.Remove s p c).obj i).OnAdd = (s.obj i).OnAdd := by
  unfold Container.Remove Container.GetChildren
  by_cases hc : c ∈ (s.obj p).m_children
  · by_cases hi : i = p <;> by_cases hic : i = c <;> by_cases hcp : c = p <;> simp_all
  · simp [hc]

theorem attach_cerr (s : World) (b c : WidgetId) : (Container.attach s b c).cerr = s.cerr := by
  unfold Container.attach
  cases h : (s.obj c).m_parent <;> simp [Remove_cerr]

theorem attach_requisition (s : World) (b c i : WidgetId) :
    ((Container.attach s b c).obj i).m_requisition = (s.obj i).m_requisition := by
  unfold Container.attach
  cases h : (s.obj c).m_parent <;>
    by_cases hi : i = b <;> by_cases hic : i = c <;> by_cases hcb : c = b <;>
    simp_all [Remove_requisition]

theorem attach_dynType (s : World) (b c i : WidgetId) :
    ((Container.attach s b c).obj i).dynType = (s.obj i).dynType := by
  unfold Container.attach
  cases h : (s.obj c).m_parent <;>
    by_cases hi : i = b <;> by_cases hic : i = c <;> by_cases hcb : c = b <;>
    simp_all [Remove_dynType]

theorem attach_OnAdd (s : World) (b c i : WidgetId) :
    ((Container.attach s b c).obj i).OnAdd = (s.obj i).OnAdd := by
  unfold Container.attach
  cases h : (s.obj c).m_parent <;>
    by_cases hi : i = b <;> by_cases hic : i = c <;> by_cases hcb : c = b <;>
    simp_all [Remove_OnAdd]

theorem attach_parent (s : World) (b c i : WidgetId) :
    ((Container.attach s b c).obj i).m_parent =
      if i = c then some b else (s.obj i).m_parent := by
  unfold Container.attach
  cases h : (s.obj c).m_parent <;>
    by_cases hi : i = b <;> by_cases hic : i = c <;> by_cases hcb : c = b <;>
    simp_all [Remove_parent]

/-- The children of the container after the attaching steps: what the
detaching step left, followed by the new child. -/
theorem attach_children (s : World) (b c : WidgetId) :
    ((Container.attach s b c).obj b).m_children =
      (if (s.obj c).m_parent = some b ∧ c ∈ (s.obj b).m_children
        then (s.obj b).m_children.erase c else (s.obj b).m_children) ++ [c] := by
  unfold Container.attach
  cases h : (s.obj c).m_parent with
  | none => by_cases hbc : b = c <;> simp_all
  | some p =>
    by_cases hbc : b = c <;> by_cases hbp : b = p <;> simp_all [Remove_children]
    all_goals
      rw [if_neg]
      intro hx
      exact hbp hx.1.symm

theorem IsBin_attach (s : World) (b c i : WidgetId) (h : IsBin s i) :
    IsBin (Container.attach s b c) i := by
  unfold IsBin at *
  rw [attach_dynType, attach_OnAdd]
  exact h

theorem Emit_single (call : Handler → World → Option World) (h : Handler) (s : World) :
    Signal.Emit call [h] s = call h s := by
  cases hc : call h s <;> simp [Signal.Emit, hc]

theorem Add_of_IsBin (fuel : Nat) (s : World) (b c : WidgetId) (h : IsBin s b) :
    Container.Add fuel s b c = Bin.HandleAdd fuel (Container.attach s b c) b b c := by
  unfold Container.Add
  simp only [attach_OnAdd, h.2, Emit_single, Handler.call]

/-- Every returning virtual `QueueResize` either changes nothing or performs
one `RequestSize` on some widget other than the requesting one. -/
theorem virtualQueueResize_shape (n : Nat) :
    ∀ (s : World) (x w : WidgetId) (t : World), virtualQueueResize n s x w = some t →
      t = s ∨ ∃ y, y ≠ w ∧ t = Widget.RequestSize s y (Widget.GetRequisition s w) := by
  induction n with
  | zero => intro s x w t h; simp [virtualQueueResize] at h
  | succ n ih =>
    intro s x w t h
    unfold virtualQueueResize at h
    cases hd : (s.obj x).dynType with
    | Widget =>
      simp only [hd, Widget.QueueResize] at h
      cases hp : (s.obj x).m_parent with
      | none => simp [hp] at h; exact Or.inl h.symm
      | some p => simp only [hp] at h; exact ih s p w t h
    | Bin =>
      simp only [hd, Bin.QueueResize, Widget.QueueResize] at h
      by_cases hw : w = x
      · simp only [hw, if_true] at h
        cases hp : (s.obj x).m_parent with
        | none => simp [hp] at h; exact Or.inl h.symm
        | some p => simp only [hp] at h; rw [hw]; exact ih s p x t h
      · simp only [hw, if_false] at h
        cases hc : Container.IsChild s x w with
        | false => simp [hc] at h; exact Or.inl h.symm
        | true =>
          simp [hc] at h
          exact Or.inr ⟨x, fun e => hw e.symm, h.symm⟩

/-- What a returning virtual `QueueResize` leaves untouched: `std::cerr`, every
child collection and parent link, and the requisition of the requester. -/
theorem shape_frame (s t : World) (w : WidgetId)
    (h : t = s ∨ ∃ y, y ≠ w ∧ t = Widget.RequestSize s y (Widget.GetRequisition s w)) :
    t.cerr = s.cerr ∧
      (∀ i, (t.obj i).m_children = (s.obj i).m_children ∧
        (t.obj i).m_parent = (s.obj i).m_parent ∧
        (t.obj i).dynType = (s.obj i).dynType ∧ (t.obj i).OnAdd = (s.obj i).OnAdd) ∧
      (t.obj w).m_requisition = (s.obj w).m_requisition := by
  rcases h with rfl | ⟨y, hy, rfl⟩
  · simp
  · have hwy : ¬ w = y := fun e => hy e.symm
    refine ⟨by simp [Widget.RequestSize], ?_, by simp [Widget.RequestSize, hwy]⟩
    intro i
    by_cases hi : i = y <;> simp [Widget.RequestSize, hi]

theorem mem_attach_children (s : World) (b c : WidgetId) :
    c ∈ ((Container.attach s b c).obj b).m_children := by
  rw [attach_children]
  simp

theorem attach_children_length (s : World) (b c : WidgetId) :
    (((Container.attach s b c).obj b).m_children).length ≤ ((s.obj b).m_children).length + 1 := by
  rw [attach_children]
  split_ifs with h
  · rw [List.length_append, List.length_erase_of_mem h.2]
    simp
  · simp

/-- The rejecting branch of `Bin::HandleAdd`, as reached through `Add`. -/
theorem Add_reject (fuel : Nat) (s : World) (b c : WidgetId) (hbin : IsBin s b)
    (hlen : 1 < (((Container.attach s b c).obj b).m_children).length) :
    Container.Add fuel s b c =
      some (Container.Remove ((Container.attach s b c).writeCerr Bin.warning) b c) := by
  rw [Add_of_IsBin fuel s b c hbin]
  unfold Bin.HandleAdd Container.GetChildren
  simp [hlen]

/-- The accepting branch of `Bin::HandleAdd`, as reached through `Add`. -/
theorem Add_accept (fuel : Nat) (s : World) (b c : WidgetId) (hbin : IsBin s b)
    (hlen : (((Container.attach s b c).obj b).m_children).length ≤ 1) :
    Container.Add fuel s b c = virtualQueueResize fuel (Container.attach s b c) b c := by
  rw [Add_of_IsBin fuel s b c hbin]
  unfold Bin.HandleAdd Container.GetChildren
  have h : ¬ 1 < (((Container.attach s b c).obj b).m_children).length := by omega
  simp [h]

/-- The accepting branch for a child other than the Bin itself: one
`RequestSize` with the child's requisition. -/
theorem Add_accept_child (n : Nat) (s : World) (b c : WidgetId) (hbin : IsBin s b)
    (hlen : (((Container.attach s b c).obj b).m_children).length ≤ 1) (hcb : c ≠ b) :
    Container.Add (n + 1) s b c =
      some (Widget.RequestSize (Container.attach s b c) b
        (Widget.GetRequisition (Container.attach s b c) c)) := by
  rw [Add_accept (n + 1) s b c hbin hlen]
  unfold virtualQueueResize
  have hd : ((Container.attach s b c).obj b).dynType = DynType.Bin := by
    rw [attach_dynType]; exact hbin.1
  simp [hd, Bin.QueueResize, hcb, Container.IsChild, Container.GetChildren,
    mem_attach_children]

/-- One `Add` on a Bin keeps it a Bin with at most one child. -/
theorem Add_preserves (fuel : Nat) (s t : World) (b c : WidgetId) (hbin : IsBin s b)
    (hlen : ((s.obj b).m_children).length ≤ 1) (h : Container.Add fuel s b c = some t) :
    IsBin t b ∧ ((t.obj b).m_children).length ≤ 1 := by
  have hbound := attach_children_length s b c
  have hbinA := IsBin_attach s b c b hbin
  by_cases hrej : 1 < (((Container.attach s b c).obj b).m_children).length
  · rw [Add_reject fuel s b c hbin hrej] at h
    injection h with h
    subst h
    refine ⟨?_, ?_⟩
    · unfold IsBin
      rw [Remove_dynType, Remove_OnAdd]
      exact hbinA
    · rw [Remove_children]
      have hm := mem_attach_children s b c
      simp only [writeCerr_obj, true_and, hm, if_true]
      rw [List.length_erase_of_mem hm]
      omega
  · have hle : (((Container.attach s b c).obj b).m_children).length ≤ 1 := by omega
    rw [Add_accept fuel s b c hbin hle] at h
    obtain ⟨-, hobj, -⟩ := shape_frame _ _ _ (virtualQueueResize_shape fuel _ _ _ _ h)
    obtain ⟨hc, -, hd, ho⟩ := hobj b
    refine ⟨?_, ?_⟩
    · unfold IsBin
      rw [hd, ho]
      exact hbinA
    · rw [hc]
      exact hle

/-- One `Add` of a widget other than the Bin itself returns. -/
theorem Add_returns (n : Nat) (s : World) (b c : WidgetId) (hbin : IsBin s b) (hcb : c ≠ b) :
    ∃ t, Container.Add (n + 1) s b c = some t := by
  by_cases hrej : 1 < (((Container.attach s b c).obj b).m_children).length
  · exact ⟨_, Add_reject (n + 1) s b c hbin hrej⟩
  · have hle : (((Container.attach s b c).obj b).m_children).length ≤ 1 := by omega
    exact ⟨_, Add_accept_child n s b c hbin hle hcb⟩

theorem IsBin_Bin (s : World) (b : WidgetId) : IsBin (Bin.Bin s b) b := by
  unfold IsBin Bin.Bin
  simp [Container.Container, Widget.Widget]

theorem addAll_invariant (fuel : Nat) (b : WidgetId) (cs : List WidgetId) :
    ∀ (s t : World), IsBin s b → ((s.obj b).m_children).length ≤ 1 →
      addAll fuel b cs s = some t → IsBin t b ∧ ((t.obj b).m_children).length ≤ 1 := by
  induction cs with
  | nil =>
    intro s t hbin hlen h
    simp [addAll] at h
    subst h
    exact ⟨hbin, hlen⟩
  | cons c cs ih =>
    intro s t hbin hlen h
    unfold addAll at h
    cases hadd : Container.Add fuel s b c with
    | none => simp [hadd] at h
    | some u =>
      simp only [hadd, Option.bind] at h
      obtain ⟨hb, hl⟩ := Add_preserves fuel s u b c hbin hlen hadd
      exact ih u t hb hl h

theorem addAll_returns (n : Nat) (b : WidgetId) (cs : List WidgetId) :
    ∀ (s : World), IsBin s b → ((s.obj b).m_children).length ≤ 1 → b ∉ cs →
      ∃ t, addAll (n + 1) b cs s = some t := by
  induction cs with
  | nil => intro s _ _ _; exact ⟨s, rfl⟩
  | cons c cs ih =>
    intro s hbin hlen hmem
    have hcb : c ≠ b := fun e => hmem (by simp [e])
    have hrest : b ∉ cs := fun e => hmem (by simp [e])
    obtain ⟨u, hu⟩ := Add_returns n s b c hbin hcb
    obtain ⟨hb, hl⟩ := Add_preserves (n + 1) s u b c hbin hlen hu
    obtain ⟨t, ht⟩ := ih u hb hl hrest
    exact ⟨t, by unfold addAll; simp [hu, ht]⟩

theorem attach_children_of_empty (s : World) (b c : WidgetId)
    (hempty : (s.obj b).m_children = []) :
    ((Container.attach s b c).obj b).m_children = [c] := by
  rw [attach_children, hempty]
  simp

/-- An `Add` on an empty Bin, once returned: the Bin holds exactly the new
child, nothing was written to `std::cerr`, and the Bin has the requisition of
the child. -/
theorem Add_empty (fuel : Nat) (s t : World) (b c : WidgetId) (hbin : IsBin s b)
    (hempty : (s.obj b).m_children = []) (h : Container.Add fuel s b c = some t) :
    IsBin t b ∧ (t.obj b).m_children = [c] ∧ (t.obj c).m_parent = some b ∧
      t.cerr = s.cerr ∧ (t.obj b).m_requisition = (t.obj c).m_requisition ∧
      (t.obj c).m_requisition = (s.obj c).m_requisition := by
  have hch := attach_children_of_empty s b c hempty
  have hlen : (((Container.attach s b c).obj b).m_children).length ≤ 1 := by
    rw [hch]
    simp
  have hbinT : IsBin t b := (Add_preserves fuel s t b c hbin (by simp [hempty]) h).1
  have h2 := h
  rw [Add_accept fuel s b c hbin hlen] at h2
  obtain ⟨hcerr, hobj, hr⟩ := shape_frame _ _ _ (virtualQueueResize_shape fuel _ _ _ _ h2)
  refine ⟨hbinT, ?_, ?_, ?_, ?_, ?_⟩
  · rw [(hobj b).1, hch]
  · rw [(hobj c).2.1, attach_parent]
    simp
  · rw [hcerr, attach_cerr]
  · by_cases hcb : c = b
    · rw [hcb]
    · cases fuel with
      | zero => simp [virtualQueueResize] at h2
      | succ n =>
        rw [Add_accept_child n s b c hbin hlen hcb] at h
        injection h with h
        subst h
        simp [Widget.RequestSize, Widget.GetRequisition, hcb]
  · rw [hr, attach_requisition]

/-- The rejecting `Add`: a Bin holding exactly `l1` is given another widget. -/
theorem Add_occupied (fuel : Nat) (s : World) (b l1 l2 : WidgetId) (hbin : IsBin s b)
    (hone : (s.obj b).m_children = [l1]) (hne : l2 ≠ l1) :
    Container.Add fuel s b l2 =
      some (Container.Remove ((Container.attach s b l2).writeCerr Bin.warning) b l2) := by
  have hnot : ¬ ((s.obj l2).m_parent = some b ∧ l2 ∈ (s.obj b).m_children) := by
    rw [hone]
    simp [hne]
  have hch : ((Container.attach s b l2).obj b).m_children = [l1, l2] := by
    rw [attach_children, if_neg hnot, hone]
    rfl
  exact Add_reject fuel s b l2 hbin (by rw [hch]; simp)

/-- A Bin that is its own parent never answers a resize request of itself:
the base implementation hands the request back to the Bin. -/
theorem virtualQueueResize_self_parent (n : Nat) (s : World) (b : WidgetId)
    (hd : (s.obj b).dynType = DynType.Bin) (hp : (s.obj b).m_parent = some b) :
    virtualQueueResize n s b b = none := by
  induction n with
  | zero => rfl
  | succ n ih =>
    unfold virtualQueueResize
    simp [hd, Bin.QueueResize, Widget.QueueResize, hp, ih]

/-- Adding an empty Bin to itself does not return, whatever the fuel. -/
theorem Add_self_never_returns (fuel : Nat) (s : World) (b : WidgetId) (hbin : IsBin s b)
    (hempty : (s.obj b).m_children = []) : Container.Add fuel s b b = none := by
  have hch := attach_children_of_empty s b b hempty
  rw [Add_accept fuel s b b hbin (by rw [hch]; simp)]
  apply virtualQueueResize_self_parent
  · rw [attach_dynType]
    exact hbin.1
  · rw [attach_parent]
    simp

/-! ## The claims -/

/-- C1: single-child invariant. For a Bin constructed by `Bin::Bin` in any
state and any finite sequence of `Add` calls with arbitrary widgets, whenever
the calls have returned the Bin has at most one child; and the calls do return
(with any positive fuel) when no added widget is the Bin itself. -/
theorem Bin_single_child_invariant (fuel : Nat) (s : World) (b : WidgetId)
    (cs : List WidgetId) :
    (∀ t, addAll fuel b cs (Bin.Bin s b) = some t →
        (Container.GetChildren t b).length ≤ 1) ∧
      (0 < fuel → b ∉ cs → ∃ t, addAll fuel b cs (Bin.Bin s b) = some t) := by
  have hlen : (((Bin.Bin s b).obj b).m_children).length ≤ 1 := by
    simp [Bin.Bin, Container.Container, Widget.Widget]
  refine ⟨?_, ?_⟩
  · intro t ht
    exact (addAll_invariant fuel b cs _ t (IsBin_Bin s b) hlen ht).2
  · intro hf hmem
    obtain ⟨n, rfl⟩ : ∃ n, fuel = n + 1 := ⟨fuel - 1, by omega⟩
    exact addAll_returns n b cs _ (IsBin_Bin s b) hlen hmem

/-- Witness for C1: three `Add` calls on a fresh Bin return and leave at most
one child. -/
theorem Bin_single_child_invariant_witness :
    ∃ t, addAll 1 1 [2, 3, 2] (Bin.Bin World.fresh 1) = some t ∧
      (Container.GetChildren t 1).length ≤ 1 := by
  obtain ⟨t, ht⟩ :=
    (Bin_single_child_invariant 1 World.fresh 1 [2, 3, 2]).2 (by decide) (by decide)
  exact ⟨t, ht, (Bin_single_child_invariant 1 World.fresh 1 [2, 3, 2]).1 t ht⟩

/-- C2: rejection of a second child. When a Bin holds exactly `l1` and a
different widget `l2` is added, `Add` returns, `GetChild` is still `l1`, the
children are exactly `[l1]`, the parent of `l1` is what it was (the Bin), and
`l2` has no parent. -/
theorem Bin_Add_second_child_rejected (fuel : Nat) (s : World) (b l1 l2 : WidgetId)
    (hbin : IsBin s b) (hone : Container.GetChildren s b = [l1]) (hne : l2 ≠ l1) :
    ∃ t, Container.Add fuel s b l2 = some t ∧
      Bin.GetChild t b = some l1 ∧
      Container.GetChildren t b = [l1] ∧
      Widget.GetParent t l1 = Widget.GetParent s l1 ∧
      Widget.GetParent t l2 = none := by
  unfold Container.GetChildren at hone
  have hnot : ¬ ((s.obj l2).m_parent = some b ∧ l2 ∈ (s.obj b).m_children) := by
    rw [hone]
    simp [hne]
  have hch : ((Container.attach s b l2).obj b).m_children = [l1, l2] := by
    rw [attach_children, if_neg hnot, hone]
    rfl
  have hlen : 1 < (((Container.attach s b l2).obj b).m_children).length := by
    rw [hch]
    simp
  have hne2 : ¬ l1 = l2 := fun e => hne e.symm
  have hkids : ((Container.Remove ((Container.attach s b l2).writeCerr Bin.warning) b l2).obj
      b).m_children = [l1] := by
    rw [Remove_children]
    simp [hch, hne2]
  refine ⟨_, Add_reject fuel s b l2 hbin hlen, ?_, ?_, ?_, ?_⟩
  · unfold Bin.GetChild Container.GetChildren
    rw [hkids]
    rfl
  · exact hkids
  · unfold Widget.GetParent
    rw [Remove_parent]
    simp [hne2, attach_parent]
  · unfold Widget.GetParent
    rw [Remove_parent]
    simp [hch]

/-- Witness for C2: in the scenario, adding leaf `3` to the occupied Bin `1`. -/
theorem Bin_Add_second_child_rejected_witness :
    IsBin scene 1 ∧ Container.GetChildren scene 1 = [2] ∧ 3 ≠ 2 ∧
      ∃ t, Container.Add 1 scene 1 3 = some t ∧
        Bin.GetChild t 1 = some 2 ∧
        Container.GetChildren t 1 = [2] ∧
        Widget.GetParent t 2 = Widget.GetParent scene 2 ∧
        Widget.GetParent t 3 = none :=
  ⟨⟨by decide, by decide⟩, by decide, by decide,
    Bin_Add_second_child_rejected 1 scene 1 2 3 ⟨by decide, by decide⟩ (by decide) (by decide)⟩

/-- C3: `GetChild` is a total read of the state that agrees with the child
collection: it is the empty pointer exactly when `GetChildren` is empty, and
otherwise it is the first element of `GetChildren`. -/
theorem Bin_GetChild_agrees_with_children (s : World) (b : WidgetId) :
    (Bin.GetChild s b = none ↔ Container.GetChildren s b = []) ∧
      (∀ c cs, Container.GetChildren s b = c :: cs → Bin.GetChild s b = some c) ∧
      (∀ c, Bin.GetChild s b = some c → (Container.GetChildren s b).head? = some c) := by
  unfold Bin.GetChild
  cases h : Container.GetChildren s b with
  | nil => simp
  | cons c cs => simp

/-- C4: size-to-child on resize. If the current child of the Bin is `l` and
`l` has requisition `size`, then whenever `B.QueueResize(l)` returns the Bin
has requisition `size`; and it does return, whatever the virtual calls do,
when `l` is not the Bin itself. -/
theorem Bin_QueueResize_sizes_to_child (fuel : Nat) (s : World) (b l : WidgetId)
    (size : Vector2f) (hchild : Bin.GetChild s b = some l)
    (hreq : Widget.GetRequisition s l = size) :
    (∀ t, Bin.QueueResize (virtualQueueResize fuel) s b l = some t →
        Widget.GetRequisition t b = size) ∧
      (l ≠ b → ∀ virt, ∃ t, Bin.QueueResize virt s b l = some t ∧
        Widget.GetRequisition t b = size) := by
  have hmem : Container.IsChild s b l = true := by
    unfold Container.IsChild
    unfold Bin.GetChild at hchild
    cases hk : Container.GetChildren s b with
    | nil => simp [hk] at hchild
    | cons c cs =>
      simp [hk] at hchild
      simp [hchild]
  have hcase : ∀ virt, l ≠ b → Bin.QueueResize virt s b l =
      some (Widget.RequestSize s b (Widget.GetRequisition s l)) := by
    intro virt hlb
    unfold Bin.QueueResize
    simp [hlb, hmem]
  have hset : Widget.GetRequisition
      (Widget.RequestSize s b (Widget.GetRequisition s l)) b = size := by
    simp [Widget.GetRequisition, Widget.RequestSize] at *
    exact hreq
  refine ⟨?_, ?_⟩
  · intro t ht
    by_cases hlb : l = b
    · subst hlb
      unfold Bin.QueueResize Widget.QueueResize at ht
      simp only [if_true] at ht
      cases hp : (s.obj l).m_parent with
      | none =>
        simp [hp] at ht
        subst ht
        exact hreq
      | some p =>
        simp only [hp] at ht
        obtain ⟨-, -, hr⟩ := shape_frame _ _ _ (virtualQueueResize_shape fuel _ _ _ _ ht)
        unfold Widget.GetRequisition at *
        rw [hr]
        exact hreq
    · rw [hcase _ hlb] at ht
      injection ht with ht
      subst ht
      exact hset
  · intro hlb virt
    exact ⟨_, hcase virt hlb, hset⟩

/-- Witness for C4: the scenario of the spec, with the size `{10, 20}`; the
root has not been involved. -/
theorem Bin_QueueResize_sizes_to_child_witness :
    Bin.GetChild scene 1 = some 2 ∧ Widget.GetRequisition scene 2 = ⟨10, 20⟩ ∧ 2 ≠ 1 ∧
      ∃ t, Bin.QueueResize (virtualQueueResize 4) scene 1 2 = some t ∧
        Widget.GetRequisition t 1 = ⟨10, 20⟩ :=
  ⟨by decide, by decide, by decide,
    (Bin_QueueResize_sizes_to_child 4 scene 1 2 ⟨10, 20⟩ (by decide) (by decide)).2
      (by decide) (virtualQueueResize 4)⟩

/-- C6: foreign resize requests are dropped. For a widget that is neither the
Bin nor one of its children, `B.QueueResize(w)` returns the state it was given
(requisitions, allocations, children, parents, `std::cerr` and the emission
trace included), whatever the virtual `QueueResize` calls would do: none is
made, so nothing reaches the parent. -/
theorem Bin_QueueResize_foreign_dropped
    (virt : World → WidgetId → WidgetId → Option World) (s : World) (b w : WidgetId)
    (hself : w ≠ b) (hchild : Container.IsChild s b w = false) :
    Bin.QueueResize virt s b w = some s := by
  unfold Bin.QueueResize
  simp [hself, hchild]

/-- Witness for C6: in the scenario, leaf `3` is foreign to Bin `1`. -/
theorem Bin_QueueResize_foreign_dropped_witness :
    3 ≠ 1 ∧ Container.IsChild scene 1 3 = false ∧
      Bin.QueueResize (fun _ _ _ => none) scene 1 3 = some scene :=
  ⟨by decide, by decide,
    Bin_QueueResize_foreign_dropped (fun _ _ _ => none) scene 1 3 (by decide) (by decide)⟩

/-- C7: the diagnostic is written exactly when a second child is rejected.
For a Bin and an `Add(c)`: (1) if the Bin held exactly another widget `l1`,
the call returns and exactly one warning line is appended; (2) if the Bin was
empty, a returning call appends nothing (and the call returns when `c` is not
the Bin itself); (3) more generally an `Add` whose handler does not take the
rejecting branch appends nothing; (4) `QueueResize` appends nothing.
`GetChild` is a read of the state and has no state to write to. -/
theorem Bin_warning_exactly_on_rejection (fuel : Nat) (s : World) (b c : WidgetId)
    (hbin : IsBin s b) :
    (∀ l1, Container.GetChildren s b = [l1] → c ≠ l1 →
        ∃ t, Container.Add fuel s b c = some t ∧ t.cerr = s.cerr ++ [Bin.warning]) ∧
      (Container.GetChildren s b = [] →
        (∀ t, Container.Add fuel s b c = some t → t.cerr = s.cerr) ∧
        (0 < fuel → c ≠ b → ∃ t, Container.Add fuel s b c = some t)) ∧
      ((Container.GetChildren (Container.attach s b c) b).length ≤ 1 →
        ∀ t, Container.Add fuel s b c = some t → t.cerr = s.cerr) ∧
      (∀ w t, Bin.QueueResize (virtualQueueResize fuel) s b w = some t → t.cerr = s.cerr) := by
  unfold Container.GetChildren
  refine ⟨?_, ?_, ?_, ?_⟩
  · intro l1 hone hne
    refine ⟨_, Add_occupied fuel s b l1 c hbin hone hne, ?_⟩
    rw [Remove_cerr]
    simp [attach_cerr]
  · intro hempty
    refine ⟨?_, ?_⟩
    · intro t ht
      exact (Add_empty fuel s t b c hbin hempty ht).2.2.2.1
    · intro hf hcb
      obtain ⟨n, rfl⟩ : ∃ n, fuel = n + 1 := ⟨fuel - 1, by omega⟩
      exact Add_returns n s b c hbin hcb
  · intro hlen t ht
    rw [Add_accept fuel s b c hbin hlen] at ht
    obtain ⟨hcerr, -, -⟩ := shape_frame _ _ _ (virtualQueueResize_shape fuel _ _ _ _ ht)
    rw [hcerr, attach_cerr]
  · intro w t ht
    have hv : virtualQueueResize (fuel + 1) s b w = some t := by
      unfold virtualQueueResize
      simp only [hbin.1]
      exact ht
    exact (shape_frame _ _ _ (virtualQueueResize_shape (fuel + 1) _ _ _ _ hv)).1

/-- Witness for C7: adding leaf `3` to the occupied Bin `1` of the scenario
appends exactly the warning line. -/
theorem Bin_warning_exactly_on_rejection_witness :
    IsBin scene 1 ∧ Container.GetChildren scene 1 = [2] ∧ 3 ≠ 2 ∧
      ∃ t, Container.Add 0 scene 1 3 = some t ∧ t.cerr = scene.cerr ++ [Bin.warning] :=
  ⟨⟨by decide, by decide⟩, by decide, by decide,
    (Bin_warning_exactly_on_rejection 0 scene 1 3 ⟨by decide, by decide⟩).1 2
      (by decide) (by decide)⟩

/-- C8: Empty -> Occupied always succeeds. On a Bin without children, a
returning `Add(c)` leaves exactly `[c]` as children, `GetChild` is `c`, the
parent of `c` is the Bin, the handler did not take the rejecting branch and
nothing was written to `std::cerr`; the call returns when `c` is not the Bin
itself. The same holds after the Bin was emptied again: after `Add(c0)` and
`Remove(c0)` the Bin is an empty Bin again. -/
theorem Bin_Add_empty_succeeds (fuel : Nat) (s : World) (b c : WidgetId)
    (hbin : IsBin s b) (hempty : Container.GetChildren s b = []) :
    ((∀ t, Container.Add fuel s b c = some t →
          Container.GetChildren t b = [c] ∧ Bin.GetChild t b = some c ∧
          Widget.GetParent t c = some b ∧ t.cerr = s.cerr) ∧
        ¬ (Container.GetChildren (Container.attach s b c) b).length > 1 ∧
        (0 < fuel → c ≠ b → ∃ t, Container.Add fuel s b c = some t)) ∧
      (∀ c0 u, Container.Add fuel s b c0 = some u →
        IsBin (Container.Remove u b c0) b ∧
        Container.GetChildren (Container.Remove u b c0) b = [] ∧
        (∀ t, Container.Add fuel (Container.Remove u b c0) b c = some t →
          Container.GetChildren t b = [c] ∧ Bin.GetChild t b = some c ∧
          Widget.GetParent t c = some b ∧ t.cerr = u.cerr) ∧
        (0 < fuel → c ≠ b → ∃ t, Container.Add fuel (Container.Remove u b c0) b c = some t)) := by
  have key : ∀ (r : World), IsBin r b → (r.obj b).m_children = [] →
      (∀ t, Container.Add fuel r b c = some t →
          Container.GetChildren t b = [c] ∧ Bin.GetChild t b = some c ∧
          Widget.GetParent t c = some b ∧ t.cerr = r.cerr) ∧
        (0 < fuel → c ≠ b → ∃ t, Container.Add fuel r b c = some t) := by
    intro r hr he
    refine ⟨?_, ?_⟩
    · intro t ht
      obtain ⟨-, hk, hp, hc, -, -⟩ := Add_empty fuel r t b c hr he ht
      refine ⟨hk, ?_, hp, hc⟩
      unfold Bin.GetChild Container.GetChildren
      rw [hk]
      rfl
    · intro hf hcb
      obtain ⟨n, rfl⟩ : ∃ n, fuel = n + 1 := ⟨fuel - 1, by omega⟩
      exact Add_returns n r b c hr hcb
  unfold Container.GetChildren at hempty
  refine ⟨⟨(key s hbin hempty).1, ?_, (key s hbin hempty).2⟩, ?_⟩
  · unfold Container.GetChildren
    rw [attach_children_of_empty s b c hempty]
    simp
  · intro c0 u hu
    obtain ⟨hbu, hku, -, -, -, -⟩ := Add_empty fuel s u b c0 hbin hempty hu
    have hbr : IsBin (Container.Remove u b c0) b := by
      unfold IsBin
      rw [Remove_dynType, Remove_OnAdd]
      exact hbu
    have hkr : ((Container.Remove u b c0).obj b).m_children = [] := by
      rw [Remove_children, hku]
      simp
    refine ⟨hbr, hkr, ?_, (key _ hbr hkr).2⟩
    intro t ht
    have h := (key _ hbr hkr).1 t ht
    rw [Remove_cerr] at h
    exact h

/-- Witness for C8: a fresh Bin `1` accepts leaf `2`; emptied again, it
accepts leaf `3`. -/
theorem Bin_Add_empty_succeeds_witness :
    IsBin (Bin.Bin World.fresh 1) 1 ∧ Container.GetChildren (Bin.Bin World.fresh 1) 1 = [] ∧
      (∃ t, Container.Add 1 (Bin.Bin World.fresh 1) 1 3 = some t ∧
        Container.GetChildren t 1 = [3] ∧ Bin.GetChild t 1 = some 3 ∧
        Widget.GetParent t 3 = some 1 ∧ t.cerr = []) := by
  have h := Bin_Add_empty_succeeds 1 (Bin.Bin World.fresh 1) 1 3 ⟨by decide, by decide⟩
    (by decide)
  obtain ⟨t, ht⟩ := h.1.2.2 (by decide) (by decide)
  exact ⟨⟨by decide, by decide⟩, by decide, t, ht, h.1.1 t ht⟩

/-- C9: size-to-child on `Add`. On an empty Bin, a returning `Add(c)` leaves
the Bin with the requisition of `c` (which is the requisition `c` had before
the call), without any `QueueResize` by the caller; the call returns when `c`
is not the Bin itself. -/
theorem Bin_Add_sizes_to_child (fuel : Nat) (s : World) (b c : WidgetId)
    (hbin : IsBin s b) (hempty : Container.GetChildren s b = []) :
    (∀ t, Container.Add fuel s b c = some t →
        Widget.GetRequisition t b = Widget.GetRequisition t c ∧
        Widget.GetRequisition t c = Widget.GetRequisition s c) ∧
      (0 < fuel → c ≠ b → ∃ t, Container.Add fuel s b c = some t) := by
  unfold Container.GetChildren at hempty
  refine ⟨?_, ?_⟩
  · intro t ht
    obtain ⟨-, -, -, -, h1, h2⟩ := Add_empty fuel s t b c hbin hempty ht
    exact ⟨h1, h2⟩
  · intro hf hcb
    obtain ⟨n, rfl⟩ : ∃ n, fuel = n + 1 := ⟨fuel - 1, by omega⟩
    exact Add_returns n s b c hbin hcb

/-- Witness for C9: a fresh Bin `1` is given a leaf `2` that requested the
size `{5, 5}`. -/
theorem Bin_Add_sizes_to_child_witness :
    IsBin (Widget.RequestSize (Bin.Bin World.fresh 1) 2 ⟨5, 5⟩) 1 ∧
      Container.GetChildren (Widget.RequestSize (Bin.Bin World.fresh 1) 2 ⟨5, 5⟩) 1 = [] ∧
      ∃ t, Container.Add 1 (Widget.RequestSize (Bin.Bin World.fresh 1) 2 ⟨5, 5⟩) 1 2 = some t ∧
        Widget.GetRequisition t 1 = Widget.GetRequisition t 2 ∧
        Widget.GetRequisition t 2 = ⟨5, 5⟩ := by
  have h := Bin_Add_sizes_to_child 1 (Widget.RequestSize (Bin.Bin World.fresh 1) 2 ⟨5, 5⟩) 1 2
    ⟨by decide, by decide⟩ (by decide)
  obtain ⟨t, ht⟩ := h.2 (by decide) (by decide)
  obtain ⟨h1, h2⟩ := h.1 t ht
  exact ⟨⟨by decide, by decide⟩, by decide, t, ht, h1, h2.trans (by decide)⟩

/-- C10: a rejected `Add` does not resize the Bin. When a Bin holding exactly
`l1` is given another widget `l2`, the call returns for every fuel (fuel 0
included: no `QueueResize` is called), and the requisition of the Bin, like
that of every widget, is what it was before the call, whatever the requisition
of `l2`. -/
theorem Bin_Add_rejected_keeps_requisition (fuel : Nat) (s : World) (b l1 l2 : WidgetId)
    (hbin : IsBin s b) (hone : Container.GetChildren s b = [l1]) (hne : l2 ≠ l1) :
    ∃ t, Container.Add fuel s b l2 = some t ∧
      Widget.GetRequisition t b = Widget.GetRequisition s b ∧
      (∀ i, Widget.GetRequisition t i = Widget.GetRequisition s i) := by
  unfold Container.GetChildren at hone
  have hreq : ∀ i, Widget.GetRequisition
      (Container.Remove ((Container.attach s b l2).writeCerr Bin.warning) b l2) i =
        Widget.GetRequisition s i := by
    intro i
    unfold Widget.GetRequisition
    rw [Remove_requisition]
    simp [attach_requisition]
  exact ⟨_, Add_occupied fuel s b l1 l2 hbin hone hne, hreq b, hreq⟩

/-- Witness for C10: in the scenario, leaf `3` requests `{7, 9}` and is then
added to the occupied Bin `1`, which keeps its requisition. -/
theorem Bin_Add_rejected_keeps_requisition_witness :
    IsBin (Widget.RequestSize scene 3 ⟨7, 9⟩) 1 ∧
      Container.GetChildren (Widget.RequestSize scene 3 ⟨7, 9⟩) 1 = [2] ∧ 3 ≠ 2 ∧
      ∃ t, Container.Add 0 (Widget.RequestSize scene 3 ⟨7, 9⟩) 1 3 = some t ∧
        Widget.GetRequisition t 1 = Widget.GetRequisition (Widget.RequestSize scene 3 ⟨7, 9⟩) 1 ∧
        (∀ i, Widget.GetRequisition t i =
          Widget.GetRequisition (Widget.RequestSize scene 3 ⟨7, 9⟩) i) :=
  ⟨⟨by decide, by decide⟩, by decide, by decide,
    Bin_Add_rejected_keeps_requisition 0 (Widget.RequestSize scene 3 ⟨7, 9⟩) 1 2 3
      ⟨by decide, by decide⟩ (by decide) (by decide)⟩

end sfg
